import Mathlib

/-!
Verification development for a media merge-and-upload server.

The program accepts a request naming an audio and a video asset, downloads
both into temporary files, merges them with a transcoding engine, uploads
the result to a remote object store (single-shot below a size threshold,
chunked session protocol above it), and answers with a JSON response.

The definitions below are a shallow embedding of `src/server.js`:
files are byte lists, HTTP calls are recorded as explicit call values,
and the event-driven stages are oracles whose outcomes are passed in.
-/

namespace JFF

/-- `const CHUNK = 8 * 1024 * 1024` — chunk size of the chunked upload loop. -/
def CHUNK : Nat := 8 * 1024 * 1024

/-- The `150 * 1024 * 1024` byte threshold separating the single-shot upload
from the chunked session upload (`if (size <= 150 * 1024 * 1024)`). -/
def SINGLE_LIMIT : Nat := 150 * 1024 * 1024

/-- One HTTP call issued by `dropboxUpload`, carrying the request fields the
code places in the `Dropbox-API-Arg` header together with the raw request
body (the bytes sent). -/
inductive UploadCall where
  | upload (path mode : String) (autorename mute : Bool) (body : List Nat)
  | sessionStart (close : Bool) (body : List Nat)
  | sessionAppend (session_id : String) (offset : Nat) (close : Bool) (body : List Nat)
  | sessionFinish (session_id : String) (offset : Nat) (commitPath commitMode : String)
      (commitAutorename commitMute : Bool) (body : List Nat)
  deriving DecidableEq, Repr

/-- Value returned by `dropboxUpload` to its caller: either the provider's
response data verbatim (single-shot path, `return resp.data`) or the locally
constructed object (chunked path, `return { path_display, size }`). -/
inductive UploadResult where
  | providerMeta (data : String)
  | localMeta (path_display : String) (size : Nat)
  deriving DecidableEq, Repr

/-- The calls issued by the `while (offset < size)` loop of the chunked branch
of `dropboxUpload`, starting at a given `offset`.  In the source,
`toRead = Math.min(CHUNK, size - offset)`, `bytesRead = toRead` (a read of a
regular file at a valid offset), the chunk body is the slice of the file at
`offset` of length `toRead`, `isLast = offset + bytesRead >= size`, and the
loop issues `upload_session/append_v2` for every chunk except the last and
`upload_session/finish` (with the commit naming the destination path,
overwrite mode, no autorename, not muted) for the last. -/
def chunkCalls (session_id dest : String) (content : List Nat) (offset : Nat) :
    List UploadCall :=
  if h : offset < content.length then
    if content.length ≤ offset + min CHUNK (content.length - offset) then
      [UploadCall.sessionFinish session_id offset dest "overwrite" false false
        ((content.drop offset).take (min CHUNK (content.length - offset)))]
    else
      UploadCall.sessionAppend session_id offset false
          ((content.drop offset).take (min CHUNK (content.length - offset))) ::
        chunkCalls session_id dest content (offset + min CHUNK (content.length - offset))
  else []
termination_by content.length - offset
decreasing_by
  have hC : CHUNK = 8388608 := by norm_num [CHUNK]
  omega

/-- `dropboxUpload(localPath, dropboxDestPath)`: the local file is represented
by its byte list `content`; `providerData` is the provider's response to the
single-shot call and `session_id` the id returned by `upload_session/start`.
Returns the HTTP calls issued, in order, and the value returned to the
caller. -/
def dropboxUpload (content : List Nat) (dropboxDestPath : String)
    (providerData session_id : String) : List UploadCall × UploadResult :=
  if content.length ≤ SINGLE_LIMIT then
    ([UploadCall.upload dropboxDestPath "overwrite" false false content],
     UploadResult.providerMeta providerData)
  else
    (UploadCall.sessionStart false [] ::
       chunkCalls session_id dropboxDestPath content 0,
     UploadResult.localMeta dropboxDestPath content.length)

/-- Number of chunks the loop reads for a file of `size` bytes:
`⌈size / CHUNK⌉`, computed as `(size + CHUNK - 1) / CHUNK`. -/
def numChunks (size : Nat) : Nat := (size + CHUNK - 1) / CHUNK

/-- The raw request body of an upload call. -/
def callBody : UploadCall → List Nat
  | .upload _ _ _ _ b => b
  | .sessionStart _ b => b
  | .sessionAppend _ _ _ b => b
  | .sessionFinish _ _ _ _ _ _ b => b

/-- The cursor offset and body of an `append_v2` call, `none` otherwise. -/
def getAppend : UploadCall → Option (Nat × List Nat)
  | .sessionAppend _ off _ b => some (off, b)
  | _ => none

/-- The cursor offset and body of a `finish` call, `none` otherwise. -/
def getFinish : UploadCall → Option (Nat × List Nat)
  | .sessionFinish _ off _ _ _ _ b => some (off, b)
  | _ => none

/-- A parsed URL as the WHATWG `URL` object the code builds with `new URL`:
we model the components the fetcher reads and writes — hostname and the
ordered search parameters — plus the pathname, which the rewriting never
touches. -/
structure SrcUrl where
  hostname : String
  pathname : String
  searchParams : List (String × String)
  deriving DecidableEq, Repr

/-- `isDropboxSharedLink(url)`: the hostname ends in `dropbox.com` or
`db.tt`. -/
def isDropboxSharedLink (u : SrcUrl) : Bool :=
  u.hostname.endsWith "dropbox.com" || u.hostname.endsWith "db.tt"

/-- `URLSearchParams.set(k, v)`: overwrite the first binding of the key, drop
any later duplicate bindings, and append the binding if the key is absent. -/
def setParam : List (String × String) → String → String → List (String × String)
  | [], k, v => [(k, v)]
  | (k0, v0) :: rest, k, v =>
    if k0 = k then (k, v) :: rest.filter (fun p => p.1 ≠ k)
    else (k0, v0) :: setParam rest k v

/-- `toDirectDownload(url)`: set the `dl` query parameter to `1` if present,
append `dl=1` otherwise.  (The catch branch for unparsable URLs is outside
the model: a `SrcUrl` is already parsed.) -/
def toDirectDownload (u : SrcUrl) : SrcUrl :=
  if u.searchParams.any (fun p => p.1 = "dl") then
    { u with searchParams := setParam u.searchParams "dl" "1" }
  else
    { u with searchParams := u.searchParams ++ [("dl", "1")] }

/-- Lines 79-81 of `downloadToTemp`: provider sharing links are rewritten to
direct-download form before the GET; other URLs are fetched as given. -/
def resolveDirectUrl (u : SrcUrl) : SrcUrl :=
  if isDropboxSharedLink u then toDirectDownload u else u

/-- First value bound to a key in a search-parameter list
(`URLSearchParams.get`). -/
def getParam (ps : List (String × String)) (k : String) : Option String :=
  (ps.find? (fun p => p.1 = k)).map (fun p => p.2)

/-- One declared input of the ffmpeg command: its per-input options and the
input file. -/
structure FFInput where
  opts : List String
  file : String
  deriving DecidableEq, Repr

/-- The ffmpeg command under construction, as driven through the builder
calls the handler makes: declared inputs, input options staged for the next
declared input, codec/bitrate selections and output options. -/
structure FFCommand where
  inputs : List FFInput
  pendingInputOpts : List String
  vcodec : Option String
  acodec : Option String
  abitrate : Option String
  outputOpts : List String
  deriving DecidableEq, Repr

/-- `ffmpegLib()`: a fresh command. -/
def FFCommand.empty : FFCommand :=
  { inputs := [], pendingInputOpts := [], vcodec := none, acodec := none,
    abitrate := none, outputOpts := [] }

/-- `.input(file)`: declare the next input, attaching the staged input
options.  Modelled from the spec: the engine builder (fluent-ffmpeg) is
external to this repository, and the spec describes the time-offset directive
given to `inputOptions` as applied to the additional input declared by the
adjacent `.input` call, so staged options attach to the next declared
input. -/
def FFCommand.input (c : FFCommand) (f : String) : FFCommand :=
  { c with inputs := c.inputs ++ [{ opts := c.pendingInputOpts, file := f }],
           pendingInputOpts := [] }

/-- `.inputOptions(opts)`: stage per-input options. -/
def FFCommand.inputOptions (c : FFCommand) (o : List String) : FFCommand :=
  { c with pendingInputOpts := c.pendingInputOpts ++ o }

/-- `.outputOptions(opts)`: append output options. -/
def FFCommand.outputOptions (c : FFCommand) (o : List String) : FFCommand :=
  { c with outputOpts := c.outputOpts ++ o }

/-- `.videoCodec(name)`. -/
def FFCommand.videoCodec (c : FFCommand) (s : String) : FFCommand :=
  { c with vcodec := some s }

/-- `.audioCodec(name)`. -/
def FFCommand.audioCodec (c : FFCommand) (s : String) : FFCommand :=
  { c with acodec := some s }

/-- `.audioBitrate(b)`. -/
def FFCommand.audioBitrate (c : FFCommand) (s : String) : FFCommand :=
  { c with abitrate := some s }

/-- Lines 243-270 of the handler: build the ffmpeg command — video input
first, audio second; a third time-shifted duplicate input when
`audio_offset_sec != 0` (audio re-added for a positive offset, video for a
negative one); `-shortest` when trimming; `libx264`/`veryfast`/`+faststart`
when re-encoding, `-c:v copy` otherwise; always AAC audio at the requested
bitrate. -/
def buildMergeCommand (videoTmp audioTmp : String) (audio_offset_sec : Int)
    (trim_to_shortest reencode_video : Bool) (audio_bitrate : String) : FFCommand :=
  let cmd := (FFCommand.empty.input videoTmp).input audioTmp
  let cmd := if audio_offset_sec ≠ 0 then
      (if audio_offset_sec > 0 then
        (cmd.inputOptions ["-itsoffset", toString audio_offset_sec]).input audioTmp
      else
        (cmd.inputOptions ["-itsoffset", toString (-audio_offset_sec)]).input videoTmp)
    else cmd
  let cmd := if trim_to_shortest then cmd.outputOptions ["-shortest"] else cmd
  let cmd := if reencode_video then
      (cmd.videoCodec "libx264").outputOptions
        ["-preset", "veryfast", "-movflags", "+faststart"]
    else cmd.outputOptions ["-c:v", "copy"]
  (cmd.audioCodec "aac").audioBitrate audio_bitrate

/-- JS truthiness of an optional string request field or environment
variable: `undefined` and the empty string are falsy. -/
def present : Option String → Bool
  | none => false
  | some s => !s.isEmpty

/-- Observable effects of one handler invocation, in order: an authenticated
provider API request, a content GET request, a temp-file name allocation
(`tmpFile`), the engine run, and an `fs.unlinkSync` deletion attempt. -/
inductive Ev where
  | apiCall : Ev
  | httpGet : Ev
  | allocTmp (file : String) : Ev
  | runFFmpeg : Ev
  | unlink (file : String) : Ev
  deriving DecidableEq, Repr

/-- Is this event a deletion attempt? -/
def Ev.isUnlink : Ev → Bool
  | .unlink _ => true
  | _ => false

deriving instance DecidableEq for Except

/-- Outcomes of the network operations of one `downloadToTemp` call: the name
drawn by `tmpFile` and the results of the `get_temporary_link` call and of
the streamed GET download (`Except.error` carries the thrown error's
message). -/
structure FetchOracle where
  tmpName : String
  linkResult : Except String Unit
  streamResult : Except String Unit
  deriving DecidableEq, Repr

/-- The tail of `downloadToTemp`: allocate the temp-file name, GET the
(possibly rewritten) direct URL, stream the body into the file. -/
def fetchStream (o : FetchOracle) : Except String String × List Ev :=
  match o.streamResult with
  | Except.ok _ => (Except.ok o.tmpName, [Ev.allocTmp o.tmpName, Ev.httpGet])
  | Except.error m => (Except.error m, [Ev.allocTmp o.tmpName, Ev.httpGet])

/-- `downloadToTemp({url, dropboxPath})`: use the URL when given, otherwise
resolve the provider path through `get_temporary_link` (which throws when no
token is configured), then stream the download to a fresh temp file. -/
def downloadToTemp (token url dropboxPath : Option String) (o : FetchOracle) :
    Except String String × List Ev :=
  if present url then
    fetchStream o
  else if present dropboxPath then
    if present token = false then
      (Except.error "Missing DROPBOX_ACCESS_TOKEN env var", [])
    else
      match o.linkResult with
      | Except.error m => (Except.error m, [Ev.apiCall])
      | Except.ok _ =>
        let r := fetchStream o
        (r.1, Ev.apiCall :: r.2)
  else (Except.error "Provide either url or dropboxPath", [])

/-- The request body fields of `POST /merge` after destructuring with the
code's defaults (`audio_offset_sec = 0`, `trim_to_shortest = true`,
`reencode_video = false`, `audio_bitrate = "192k"`). -/
structure MergeRequest where
  audio_url : Option String
  video_url : Option String
  audio_path : Option String
  video_path : Option String
  out_path : Option String
  audio_offset_sec : Int
  trim_to_shortest : Bool
  reencode_video : Bool
  audio_bitrate : String
  deriving DecidableEq, Repr

/-- Outcomes of one invocation's external effects: the two fetches, the name
drawn for the output temp file, the merge engine's terminal event (`error`
with the engine's message, or completion), and the upload stage's outcome. -/
structure Oracle where
  audioFetch : FetchOracle
  videoFetch : FetchOracle
  outTmpName : String
  mergeResult : Except String Unit
  uploadResult : Except String UploadResult
  deriving DecidableEq, Repr

/-- The handler's HTTP response: a 400 client error, a 500 error from the
catch block, or the success JSON (elapsed wall-clock seconds are outside the
model). -/
inductive MergeResponse where
  | clientError (error : String)
  | serverError (error : String)
  | success (out_path : String) (uploaded : UploadResult)
  deriving DecidableEq, Repr

/-- Is this the success response? -/
def MergeResponse.isSuccess : MergeResponse → Bool
  | .success _ _ => true
  | _ => false

/-- Is this a 400 response? -/
def MergeResponse.isClientError : MergeResponse → Bool
  | .clientError _ => true
  | _ => false

/-- The `POST /merge` handler: token check, request validation, audio fetch,
video fetch, output temp-name allocation, engine run, upload, cleanup,
response.  The upload stage is abstracted to one provider call event (its
calls are modelled in detail by `dropboxUpload`); the constructed engine
command is modelled by `buildMergeCommand`.  Any stage error is caught by the
catch block, which answers 500 with the error's message. -/
def mergeHandler (token : Option String) (req : MergeRequest) (o : Oracle) :
    MergeResponse × List Ev :=
  if present token = false then
    (MergeResponse.clientError "Server missing DROPBOX_ACCESS_TOKEN env var", [])
  else if present req.out_path = false then
    (MergeResponse.clientError "Missing out_path (Dropbox destination path)", [])
  else if !(present req.audio_url || present req.audio_path) then
    (MergeResponse.clientError "Provide audio_url or audio_path", [])
  else if !(present req.video_url || present req.video_path) then
    (MergeResponse.clientError "Provide video_url or video_path", [])
  else
    match downloadToTemp token req.audio_url req.audio_path o.audioFetch with
    | (Except.error m, evsA) => (MergeResponse.serverError m, evsA)
    | (Except.ok audioTmp, evsA) =>
      match downloadToTemp token req.video_url req.video_path o.videoFetch with
      | (Except.error m, evsV) => (MergeResponse.serverError m, evsA ++ evsV)
      | (Except.ok videoTmp, evsV) =>
        match o.mergeResult with
        | Except.error m =>
          (MergeResponse.serverError m,
           evsA ++ evsV ++ [Ev.allocTmp o.outTmpName, Ev.runFFmpeg])
        | Except.ok _ =>
          match o.uploadResult with
          | Except.error m =>
            (MergeResponse.serverError m,
             evsA ++ evsV ++ [Ev.allocTmp o.outTmpName, Ev.runFFmpeg, Ev.apiCall])
          | Except.ok uploaded =>
            (MergeResponse.success (req.out_path.getD "") uploaded,
             evsA ++ evsV ++
               [Ev.allocTmp o.outTmpName, Ev.runFFmpeg, Ev.apiCall,
                Ev.unlink audioTmp, Ev.unlink videoTmp, Ev.unlink o.outTmpName])

/-- A fetch oracle whose network operations all succeed, staging file
`audio.tmp`. -/
def audioFetchOk : FetchOracle :=
  { tmpName := "audio.tmp", linkResult := Except.ok (), streamResult := Except.ok () }

/-- A fetch oracle whose network operations all succeed, staging file
`video.tmp`. -/
def videoFetchOk : FetchOracle :=
  { tmpName := "video.tmp", linkResult := Except.ok (), streamResult := Except.ok () }

/-- An invocation whose fetches, merge and upload all succeed. -/
def sampleOracle : Oracle :=
  { audioFetch := audioFetchOk, videoFetch := videoFetchOk, outTmpName := "out.tmp",
    mergeResult := Except.ok (),
    uploadResult := Except.ok (UploadResult.providerMeta "md") }

/-- An invocation whose fetches succeed and whose merge engine reports the
error event `boom`. -/
def mergeFailOracle : Oracle :=
  { audioFetch := audioFetchOk, videoFetch := videoFetchOk, outTmpName := "out.tmp",
    mergeResult := Except.error "boom",
    uploadResult := Except.ok (UploadResult.providerMeta "md") }

/-- A well-formed request: URLs for both assets, a destination path, and the
default option values. -/
def sampleReq : MergeRequest :=
  { audio_url := some "https://host/a.mp3", video_url := some "https://host/v.mp4",
    audio_path := none, video_path := none, out_path := some "/Apps/out.mp4",
    audio_offset_sec := 0, trim_to_shortest := true, reencode_video := false,
    audio_bitrate := "192k" }

/-- `sampleReq` without its destination path. -/
def noOutReq : MergeRequest :=
  { sampleReq with out_path := none }

lemma CHUNK_pos : 0 < CHUNK := by norm_num [CHUNK]

lemma succ_le_numChunks {s k : Nat} (h : CHUNK * k < s) : k + 1 ≤ numChunks s := by
  have hC : CHUNK = 8388608 := by norm_num [CHUNK]
  unfold numChunks
  rw [Nat.le_div_iff_mul_le CHUNK_pos]
  rw [hC] at h ⊢
  omega

lemma numChunks_le_succ {s k : Nat} (h : s ≤ CHUNK * (k + 1)) : numChunks s ≤ k + 1 := by
  have hC : CHUNK = 8388608 := by norm_num [CHUNK]
  unfold numChunks
  have h2 : (s + CHUNK - 1) / CHUNK < k + 2 := by
    rw [Nat.div_lt_iff_lt_mul CHUNK_pos]
    rw [hC] at h ⊢
    omega
  omega

lemma le_CHUNK_mul_numChunks (s : Nat) : s ≤ CHUNK * numChunks s := by
  by_cases hs : s = 0
  · simp [hs]
  · by_contra hcon
    push_neg at hcon
    have h1 := succ_le_numChunks (k := numChunks s) hcon
    omega

lemma CHUNK_mul_numChunks_pred_lt {s : Nat} (hs : 0 < s) :
    CHUNK * (numChunks s - 1) < s := by
  have h1 : 1 ≤ numChunks s := by
    have := succ_le_numChunks (s := s) (k := 0) (by simpa using hs)
    omega
  by_contra hcon
  push_neg at hcon
  by_cases h2 : numChunks s = 1
  · rw [h2] at hcon
    simp at hcon
    omega
  · have h3 : numChunks s ≤ numChunks s - 1 := by
      have := numChunks_le_succ (s := s) (k := numChunks s - 2)
        (by
          have : numChunks s - 2 + 1 = numChunks s - 1 := by omega
          rw [this]
          exact hcon)
      omega
    omega

set_option maxHeartbeats 1000000

/-- Shape of the chunk-loop call sequence: starting at offset `CHUNK * k`
(still inside the file), the loop issues one append per remaining non-final
chunk, at cursor offsets `CHUNK * k, CHUNK * (k+1), …`, followed by exactly
one finish call carrying the remaining bytes. -/
lemma chunkCalls_shape (sid dest : String) (content : List Nat) :
    ∀ n k, numChunks content.length - 1 - k = n → CHUNK * k < content.length →
      chunkCalls sid dest content (CHUNK * k) =
        ((List.range' k (numChunks content.length - 1 - k)).map fun i =>
          UploadCall.sessionAppend sid (CHUNK * i) false
            ((content.drop (CHUNK * i)).take CHUNK))
        ++ [UploadCall.sessionFinish sid (CHUNK * (numChunks content.length - 1)) dest
              "overwrite" false false
              (content.drop (CHUNK * (numChunks content.length - 1)))] := by
  intro n
  induction n with
  | zero =>
    intro k hn hk
    have hC : CHUNK = 8388608 := by norm_num [CHUNK]
    have h1 : k + 1 ≤ numChunks content.length := succ_le_numChunks hk
    have hkeq : k = numChunks content.length - 1 := by omega
    have hlast : content.length ≤ CHUNK * (k + 1) := by
      have hA := le_CHUNK_mul_numChunks content.length
      have hB : numChunks content.length = k + 1 := by omega
      rw [hB] at hA
      exact hA
    have h8 : 8388608 * k < content.length := by rw [← hC]; exact hk
    have h9 : content.length ≤ 8388608 * (k + 1) := by rw [← hC]; exact hlast
    rw [chunkCalls]
    rw [dif_pos hk]
    have hmin : min CHUNK (content.length - CHUNK * k) = content.length - CHUNK * k := by
      rw [hC]
      omega
    rw [hmin]
    rw [if_pos (by
      rw [hC]
      omega)]
    have hdroplen : (content.drop (CHUNK * k)).length = content.length - CHUNK * k := by
      simp
    rw [hn]
    simp only [List.range'_zero, List.map_nil, List.nil_append]
    rw [← hdroplen, List.take_length, hkeq]
  | succ m ih =>
    intro k hn hk
    have hC : CHUNK = 8388608 := by norm_num [CHUNK]
    have hnotlast : CHUNK * (k + 1) < content.length := by
      by_contra hcon
      push_neg at hcon
      have h1 := succ_le_numChunks hk
      have h2 := numChunks_le_succ hcon
      omega
    have h8 : 8388608 * k < content.length := by rw [← hC]; exact hk
    have h9 : 8388608 * (k + 1) < content.length := by rw [← hC]; exact hnotlast
    rw [chunkCalls]
    rw [dif_pos hk]
    have hmin : min CHUNK (content.length - CHUNK * k) = CHUNK := by
      rw [hC]
      omega
    rw [hmin]
    rw [if_neg (by
      rw [hC]
      omega)]
    have hrec : CHUNK * k + CHUNK = CHUNK * (k + 1) := by ring
    rw [hrec]
    rw [ih (k + 1) (by omega) hnotlast]
    rw [hn]
    have hrange : List.range' k (m + 1) = k :: List.range' (k + 1) m := rfl
    rw [hrange]
    have hm : numChunks content.length - 1 - (k + 1) = m := by omega
    rw [hm]
    simp

/-- The call sequence of the whole chunk loop (`offset = 0`): one append per
non-final chunk, in order, then the single finish call. -/
lemma chunkCalls_shape0 (sid dest : String) (content : List Nat)
    (h0 : 0 < content.length) :
    chunkCalls sid dest content 0 =
      ((List.range (numChunks content.length - 1)).map fun i =>
        UploadCall.sessionAppend sid (CHUNK * i) false
          ((content.drop (CHUNK * i)).take CHUNK))
      ++ [UploadCall.sessionFinish sid (CHUNK * (numChunks content.length - 1)) dest
            "overwrite" false false
            (content.drop (CHUNK * (numChunks content.length - 1)))] := by
  have hs := chunkCalls_shape sid dest content (numChunks content.length - 1 - 0) 0 rfl
    (by simpa using h0)
  rw [Nat.mul_zero] at hs
  rw [Nat.sub_zero] at hs
  rw [← List.range_eq_range'] at hs
  exact hs

/-- Concatenating the first `m` CHUNK-sized slices of a list yields its
`CHUNK * m`-byte prefix. -/
lemma take_chunks_flatten (content : List Nat) :
    ∀ m, (((List.range m).map fun i =>
        (content.drop (CHUNK * i)).take CHUNK).flatten) = content.take (CHUNK * m) := by
  intro m
  induction m with
  | zero => simp
  | succ p ih =>
    rw [List.range_succ, List.map_append, List.flatten_append]
    rw [ih]
    simp only [List.map_cons, List.map_nil, List.flatten_cons, List.flatten_nil,
      List.append_nil]
    have hsplit : CHUNK * (p + 1) = CHUNK * p + CHUNK := by ring
    rw [hsplit, List.take_add]

/-- A `CHUNK * n`-byte prefix followed by the body of a finish call at cursor
offset `CHUNK * n` reassembles the whole file. -/
lemma finish_body_flatten (sid dest : String) (content : List Nat) (n : Nat) :
    content.take (CHUNK * n) ++
      ((([UploadCall.sessionFinish sid (CHUNK * n) dest
            "overwrite" false false
            (content.drop (CHUNK * n))]).map callBody).flatten)
      = content := by
  simp only [List.map_cons, List.map_nil, List.flatten_cons, List.flatten_nil,
    List.append_nil, callBody]
  rw [List.take_append_drop]

/-- Flattening the bodies of the explicit chunk-call sequence reassembles the
whole file. -/
lemma shape_flatten_aux (sid dest : String) (content : List Nat) :
    (((((List.range (numChunks content.length - 1)).map fun i =>
        UploadCall.sessionAppend sid (CHUNK * i) false
          ((content.drop (CHUNK * i)).take CHUNK))
      ++ [UploadCall.sessionFinish sid (CHUNK * (numChunks content.length - 1)) dest
            "overwrite" false false
            (content.drop (CHUNK * (numChunks content.length - 1)))]).map callBody).flatten)
      = content := by
  rw [List.map_append, List.flatten_append, List.map_map]
  have hfun : (callBody ∘ fun i =>
      UploadCall.sessionAppend sid (CHUNK * i) false
        ((content.drop (CHUNK * i)).take CHUNK))
      = fun i => (content.drop (CHUNK * i)).take CHUNK := by
    funext i
    simp [Function.comp, callBody]
  rw [hfun]
  rw [take_chunks_flatten]
  exact finish_body_flatten sid dest content (numChunks content.length - 1)

/-- The in-order concatenation of all append and finish bodies of the chunk
loop is exactly the file content. -/
lemma chunkCalls_flatten0 (sid dest : String) (content : List Nat)
    (h0 : 0 < content.length) :
    ((chunkCalls sid dest content 0).map callBody).flatten = content := by
  rw [chunkCalls_shape0 sid dest content h0]
  exact shape_flatten_aux sid dest content

/-- On the small path (`size <= 150MiB`) `dropboxUpload` issues the single
`files/upload` call and returns the provider response. -/
lemma dropboxUpload_of_small (content : List Nat) (dest pd sid : String)
    (h : content.length ≤ SINGLE_LIMIT) :
    dropboxUpload content dest pd sid =
      ([UploadCall.upload dest "overwrite" false false content],
       UploadResult.providerMeta pd) := by
  rw [dropboxUpload, if_pos h]

/-- On the large path (`size > 150MiB`) `dropboxUpload` issues the session
start and then the chunk-loop calls, and returns the locally constructed
metadata. -/
lemma dropboxUpload_of_large (content : List Nat) (dest pd sid : String)
    (h : SINGLE_LIMIT < content.length) :
    dropboxUpload content dest pd sid =
      (UploadCall.sessionStart false [] ::
        (((List.range (numChunks content.length - 1)).map fun i =>
            UploadCall.sessionAppend sid (CHUNK * i) false
              ((content.drop (CHUNK * i)).take CHUNK))
          ++ [UploadCall.sessionFinish sid (CHUNK * (numChunks content.length - 1)) dest
                "overwrite" false false
                (content.drop (CHUNK * (numChunks content.length - 1)))]),
       UploadResult.localMeta dest content.length) := by
  rw [dropboxUpload, if_neg (by omega)]
  rw [chunkCalls_shape0 _ _ _ (by omega)]

/-- Projection of `dropboxUpload_of_large` to the call list. -/
lemma dropboxUpload_calls_of_large (content : List Nat) (dest pd sid : String)
    (h : SINGLE_LIMIT < content.length) :
    (dropboxUpload content dest pd sid).1 =
      UploadCall.sessionStart false [] ::
        (((List.range (numChunks content.length - 1)).map fun i =>
            UploadCall.sessionAppend sid (CHUNK * i) false
              ((content.drop (CHUNK * i)).take CHUNK))
          ++ [UploadCall.sessionFinish sid (CHUNK * (numChunks content.length - 1)) dest
                "overwrite" false false
                (content.drop (CHUNK * (numChunks content.length - 1)))]) := by
  rw [dropboxUpload_of_large content dest pd sid h]

/-- Extracting the append calls from a list of appends leaves them all. -/
lemma getAppend_of_map_append (sid : String) (content : List Nat) (l : List Nat) :
    ((l.map fun i => UploadCall.sessionAppend sid (CHUNK * i) false
        ((content.drop (CHUNK * i)).take CHUNK)).filterMap getAppend)
      = l.map fun i => (CHUNK * i, (content.drop (CHUNK * i)).take CHUNK) := by
  induction l with
  | nil => rfl
  | cons a t ih => simp [getAppend, ih]

/-- A list of append calls contains no finish call. -/
lemma getFinish_of_map_append (sid : String) (content : List Nat) (l : List Nat) :
    ((l.map fun i => UploadCall.sessionAppend sid (CHUNK * i) false
        ((content.drop (CHUNK * i)).take CHUNK)).filterMap getFinish) = [] := by
  induction l with
  | nil => rfl
  | cons a t ih => simp [getFinish, ih]

/-- Neither the start call nor the trailing finish call contributes an
append. -/
lemma filterMap_getAppend_calls (X : List UploadCall) (b : UploadCall)
    (hb : getAppend b = none) :
    ((UploadCall.sessionStart false [] :: (X ++ [b])).filterMap getAppend)
      = X.filterMap getAppend := by
  have hstart : getAppend (UploadCall.sessionStart false []) = none := rfl
  simp [List.filterMap_cons, List.filterMap_append, hstart, hb]

/-- The only finish call of the sequence is the trailing one. -/
lemma filterMap_getFinish_calls (X : List UploadCall) (p : Nat × List Nat)
    (b : UploadCall) (hX : X.filterMap getFinish = []) (hb : getFinish b = some p) :
    ((UploadCall.sessionStart false [] :: (X ++ [b])).filterMap getFinish) = [p] := by
  have hstart : getFinish (UploadCall.sessionStart false []) = none := rfl
  simp [List.filterMap_cons, List.filterMap_append, hstart, hX, hb]

/-- Inside the file, every one of the first `i` chunks is a full `CHUNK`
bytes, so their sizes sum to `CHUNK * i`. -/
lemma sum_chunk_lengths (content : List Nat) :
    ∀ i, CHUNK * i ≤ content.length →
      (((List.range i).map fun j =>
        ((content.drop (CHUNK * j)).take CHUNK).length)).sum = CHUNK * i := by
  intro i
  induction i with
  | zero =>
    intro _
    simp
  | succ p ih =>
    intro hle
    have hC : CHUNK = 8388608 := by norm_num [CHUNK]
    have h8 : 8388608 * (p + 1) ≤ content.length := by rw [← hC]; exact hle
    have hp : CHUNK * p ≤ content.length := by rw [hC]; omega
    rw [List.range_succ, List.map_append, List.sum_append]
    rw [ih hp]
    simp only [List.map_cons, List.map_nil, List.sum_cons, List.sum_nil]
    rw [List.length_take, List.length_drop]
    rw [hC]
    omega

/-- Taking `i ≤ n` entries of a mapped range is mapping the shorter range. -/
lemma take_map_range {α : Type} (f : Nat → α) (n i : Nat) (h : i ≤ n) :
    ((List.range n).map f).take i = (List.range i).map f := by
  rw [← List.map_take, List.take_range]
  rw [Nat.min_eq_left h]

/-- C2: for every local file of size S > 150 MiB uploaded with chunk size
C = 8 MiB, the chunked upload performs exactly `⌈S/C⌉ - 1` append calls (the
appends are, in order, the C-sized slices at cursor offsets 0, C, 2C, …),
every append's cursor offset equals the total size of the bodies already
sent, one finish call follows carrying exactly the remaining
`S - (⌈S/C⌉-1)·C` bytes, and the bytes transferred total S. -/
theorem upload_chunk_accounting (content : List Nat) (dest pd sid : String)
    (h : SINGLE_LIMIT < content.length) :
    ((dropboxUpload content dest pd sid).1.filterMap getAppend)
        = (List.range (numChunks content.length - 1)).map
            (fun i => (CHUNK * i, (content.drop (CHUNK * i)).take CHUNK)) ∧
    ((dropboxUpload content dest pd sid).1.filterMap getAppend).length
        = numChunks content.length - 1 ∧
    (((dropboxUpload content dest pd sid).1.filterMap getAppend).map (fun p => p.1))
        = (List.range (numChunks content.length - 1)).map
            (fun i => ((((dropboxUpload content dest pd sid).1.filterMap getAppend).map
                (fun p => p.2.length)).take i).sum) ∧
    ((dropboxUpload content dest pd sid).1.filterMap getFinish)
        = [(CHUNK * (numChunks content.length - 1),
            content.drop (CHUNK * (numChunks content.length - 1)))] ∧
    (content.drop (CHUNK * (numChunks content.length - 1))).length
        = content.length - CHUNK * (numChunks content.length - 1) ∧
    (((dropboxUpload content dest pd sid).1.map callBody).flatten).length
        = content.length := by
  have h0 : 0 < content.length := by omega
  have hcalls := dropboxUpload_calls_of_large content dest pd sid h
  have hA : (dropboxUpload content dest pd sid).1.filterMap getAppend
      = (List.range (numChunks content.length - 1)).map
          (fun i => (CHUNK * i, (content.drop (CHUNK * i)).take CHUNK)) := by
    rw [hcalls]
    rw [filterMap_getAppend_calls _
      (UploadCall.sessionFinish sid (CHUNK * (numChunks content.length - 1)) dest
        "overwrite" false false
        (content.drop (CHUNK * (numChunks content.length - 1)))) rfl]
    exact getAppend_of_map_append sid content (List.range (numChunks content.length - 1))
  refine ⟨hA, ?_, ?_, ?_, ?_, ?_⟩
  · rw [hA, List.length_map, List.length_range]
  · rw [hA, List.map_map, List.map_map]
    have hf1 : ((fun p : Nat × List Nat => p.1) ∘ fun i =>
        (CHUNK * i, (content.drop (CHUNK * i)).take CHUNK)) = fun i => CHUNK * i := rfl
    have hf2 : ((fun p : Nat × List Nat => p.2.length) ∘ fun i =>
        (CHUNK * i, (content.drop (CHUNK * i)).take CHUNK))
        = fun i => ((content.drop (CHUNK * i)).take CHUNK).length := rfl
    rw [hf1, hf2]
    rw [List.map_eq_map_iff]
    intro i hi
    rw [List.mem_range] at hi
    rw [take_map_range _ _ _ (Nat.le_of_lt hi)]
    have hCi : CHUNK * i ≤ content.length := by
      have h1 := CHUNK_mul_numChunks_pred_lt h0
      have h2 : CHUNK * i ≤ CHUNK * (numChunks content.length - 1) :=
        Nat.mul_le_mul_left CHUNK (by omega)
      omega
    exact (sum_chunk_lengths content i hCi).symm
  · rw [hcalls]
    exact filterMap_getFinish_calls _ _ _
      (getFinish_of_map_append sid content (List.range (numChunks content.length - 1))) rfl
  · simp
  · rw [hcalls]
    rw [List.map_cons, List.flatten_cons]
    have hcb : callBody (UploadCall.sessionStart false []) = [] := rfl
    rw [hcb, List.nil_append]
    rw [shape_flatten_aux sid dest content]

/-- Witness for C2 at a concrete 150 MiB + 1 byte file of zeros. -/
theorem upload_chunk_accounting_witness :
    SINGLE_LIMIT < (List.replicate (150 * 1024 * 1024 + 1) (0 : Nat)).length ∧
    (((dropboxUpload (List.replicate (150 * 1024 * 1024 + 1) (0 : Nat)) "/out.mp4" "pd"
          "sess").1.filterMap getAppend)
        = (List.range (numChunks (List.replicate (150 * 1024 * 1024 + 1) (0 : Nat)).length
              - 1)).map
            (fun i => (CHUNK * i,
              ((List.replicate (150 * 1024 * 1024 + 1) (0 : Nat)).drop
                (CHUNK * i)).take CHUNK)) ∧
    ((dropboxUpload (List.replicate (150 * 1024 * 1024 + 1) (0 : Nat)) "/out.mp4" "pd"
          "sess").1.filterMap getAppend).length
        = numChunks (List.replicate (150 * 1024 * 1024 + 1) (0 : Nat)).length - 1 ∧
    (((dropboxUpload (List.replicate (150 * 1024 * 1024 + 1) (0 : Nat)) "/out.mp4" "pd"
          "sess").1.filterMap getAppend).map (fun p => p.1))
        = (List.range (numChunks (List.replicate (150 * 1024 * 1024 + 1) (0 : Nat)).length
              - 1)).map
            (fun i => ((((dropboxUpload (List.replicate (150 * 1024 * 1024 + 1) (0 : Nat))
                "/out.mp4" "pd" "sess").1.filterMap getAppend).map
                (fun p => p.2.length)).take i).sum) ∧
    ((dropboxUpload (List.replicate (150 * 1024 * 1024 + 1) (0 : Nat)) "/out.mp4" "pd"
          "sess").1.filterMap getFinish)
        = [(CHUNK * (numChunks (List.replicate (150 * 1024 * 1024 + 1) (0 : Nat)).length
              - 1),
            (List.replicate (150 * 1024 * 1024 + 1) (0 : Nat)).drop
              (CHUNK * (numChunks (List.replicate (150 * 1024 * 1024 + 1) (0 : Nat)).length
                - 1)))] ∧
    ((List.replicate (150 * 1024 * 1024 + 1) (0 : Nat)).drop
        (CHUNK * (numChunks (List.replicate (150 * 1024 * 1024 + 1) (0 : Nat)).length
          - 1))).length
        = (List.replicate (150 * 1024 * 1024 + 1) (0 : Nat)).length
            - CHUNK * (numChunks (List.replicate (150 * 1024 * 1024 + 1) (0 : Nat)).length
              - 1) ∧
    (((dropboxUpload (List.replicate (150 * 1024 * 1024 + 1) (0 : Nat)) "/out.mp4" "pd"
          "sess").1.map callBody).flatten).length
        = (List.replicate (150 * 1024 * 1024 + 1) (0 : Nat)).length) := by
  have hlen : SINGLE_LIMIT < (List.replicate (150 * 1024 * 1024 + 1) (0 : Nat)).length := by
    rw [List.length_replicate]
    norm_num [SINGLE_LIMIT]
  exact ⟨hlen, upload_chunk_accounting
    (List.replicate (150 * 1024 * 1024 + 1) (0 : Nat)) "/out.mp4" "pd" "sess" hlen⟩

/-- C3: in both size regimes the bytes delivered to the remote store equal
the local file content: the single-shot body is the file content, and the
in-order concatenation of all chunk bodies (appends then finish) is the file
content. -/
theorem upload_bytes_delivered (content : List Nat) (dest pd sid : String) :
    (((dropboxUpload content dest pd sid).1).map callBody).flatten = content := by
  by_cases hle : content.length ≤ SINGLE_LIMIT
  · rw [dropboxUpload_of_small content dest pd sid hle]
    simp [callBody]
  · push_neg at hle
    rw [dropboxUpload_calls_of_large content dest pd sid hle]
    rw [List.map_cons, List.flatten_cons]
    have hcb : callBody (UploadCall.sessionStart false []) = [] := rfl
    rw [hcb, List.nil_append]
    exact shape_flatten_aux sid dest content

/-- C4: upload strategy is chosen by size at the 150 MiB threshold — at or
below it, one single upload call carrying the whole content with overwrite
mode and the destination path; above it, the session protocol: one start,
the appends, and a finish whose commit names the destination path with
overwrite mode. -/
theorem upload_strategy_by_size (content : List Nat) (dest pd sid : String) :
    dropboxUpload content dest pd sid =
      if content.length ≤ SINGLE_LIMIT then
        ([UploadCall.upload dest "overwrite" false false content],
         UploadResult.providerMeta pd)
      else
        (UploadCall.sessionStart false [] ::
          (((List.range (numChunks content.length - 1)).map fun i =>
              UploadCall.sessionAppend sid (CHUNK * i) false
                ((content.drop (CHUNK * i)).take CHUNK))
            ++ [UploadCall.sessionFinish sid (CHUNK * (numChunks content.length - 1)) dest
                  "overwrite" false false
                  (content.drop (CHUNK * (numChunks content.length - 1)))]),
         UploadResult.localMeta dest content.length) := by
  by_cases hle : content.length ≤ SINGLE_LIMIT
  · rw [if_pos hle]
    exact dropboxUpload_of_small content dest pd sid hle
  · rw [if_neg hle]
    push_neg at hle
    exact dropboxUpload_of_large content dest pd sid hle

/-- C10: the chunked path returns the locally constructed
`{ path_display, size }` object while the single-shot path returns the
provider's response data verbatim, and the two shapes differ. -/
theorem upload_result_shape (content : List Nat) (dest pd sid : String) :
    ((dropboxUpload content dest pd sid).2 =
      if content.length ≤ SINGLE_LIMIT then UploadResult.providerMeta pd
      else UploadResult.localMeta dest content.length) ∧
    UploadResult.providerMeta pd ≠ UploadResult.localMeta dest content.length := by
  constructor
  · by_cases hle : content.length ≤ SINGLE_LIMIT
    · rw [if_pos hle, dropboxUpload_of_small content dest pd sid hle]
    · rw [if_neg hle]
      push_neg at hle
      rw [dropboxUpload_of_large content dest pd sid hle]
  · intro hc
    exact UploadResult.noConfusion hc

/-- C6: the command declares the video input first, the audio input second;
a nonzero `audio_offset_sec` declares exactly one additional third input
carrying the time-offset directive — a duplicate of the audio file with
offset `audio_offset_sec` when positive, of the video file with offset
`-audio_offset_sec` when negative — leaving the first two inputs
unmodified; a zero offset declares exactly two inputs. -/
theorem merge_command_inputs (videoTmp audioTmp : String) (off : Int)
    (trim re : Bool) (br : String) :
    (buildMergeCommand videoTmp audioTmp off trim re br).inputs =
      [{ opts := [], file := videoTmp }, { opts := [], file := audioTmp }] ++
        (if off = 0 then []
         else if off > 0 then
           [{ opts := ["-itsoffset", toString off], file := audioTmp }]
         else
           [{ opts := ["-itsoffset", toString (-off)], file := videoTmp }]) := by
  rcases lt_trichotomy off 0 with hneg | h0 | hpos
  · have h1 : off ≠ 0 := by omega
    have h2 : ¬ off > 0 := by omega
    cases trim <;> cases re <;>
      simp [buildMergeCommand, h1, h2, hneg, FFCommand.empty, FFCommand.input,
        FFCommand.inputOptions, FFCommand.outputOptions, FFCommand.videoCodec,
        FFCommand.audioCodec, FFCommand.audioBitrate]
  · cases trim <;> cases re <;>
      simp [buildMergeCommand, h0, FFCommand.empty, FFCommand.input,
        FFCommand.inputOptions, FFCommand.outputOptions, FFCommand.videoCodec,
        FFCommand.audioCodec, FFCommand.audioBitrate]
  · have h1 : off ≠ 0 := by omega
    cases trim <;> cases re <;>
      simp [buildMergeCommand, h1, hpos, FFCommand.empty, FFCommand.input,
        FFCommand.inputOptions, FFCommand.outputOptions, FFCommand.videoCodec,
        FFCommand.audioCodec, FFCommand.audioBitrate]

/-- C7: the codec directives — `libx264` with the `veryfast` preset and
`+faststart` movflags when `reencode_video`, stream copy (`-c:v copy`)
otherwise, and in both cases AAC audio at exactly the requested bitrate. -/
theorem merge_command_codecs (videoTmp audioTmp : String) (off : Int)
    (trim re : Bool) (br : String) :
    (buildMergeCommand videoTmp audioTmp off trim re br).vcodec
        = (if re then some "libx264" else none) ∧
    (buildMergeCommand videoTmp audioTmp off trim re br).outputOpts
        = (if trim then ["-shortest"] else []) ++
            (if re then ["-preset", "veryfast", "-movflags", "+faststart"]
             else ["-c:v", "copy"]) ∧
    (buildMergeCommand videoTmp audioTmp off trim re br).acodec = some "aac" ∧
    (buildMergeCommand videoTmp audioTmp off trim re br).abitrate = some br := by
  rcases lt_trichotomy off 0 with hneg | h0 | hpos
  · have h1 : off ≠ 0 := by omega
    have h2 : ¬ off > 0 := by omega
    cases trim <;> cases re <;>
      simp [buildMergeCommand, h1, h2, hneg, FFCommand.empty, FFCommand.input,
        FFCommand.inputOptions, FFCommand.outputOptions, FFCommand.videoCodec,
        FFCommand.audioCodec, FFCommand.audioBitrate]
  · cases trim <;> cases re <;>
      simp [buildMergeCommand, h0, FFCommand.empty, FFCommand.input,
        FFCommand.inputOptions, FFCommand.outputOptions, FFCommand.videoCodec,
        FFCommand.audioCodec, FFCommand.audioBitrate]
  · have h1 : off ≠ 0 := by omega
    cases trim <;> cases re <;>
      simp [buildMergeCommand, h1, hpos, FFCommand.empty, FFCommand.input,
        FFCommand.inputOptions, FFCommand.outputOptions, FFCommand.videoCodec,
        FFCommand.audioCodec, FFCommand.audioBitrate]

/-- Setting a key gives it that value (`URLSearchParams.set` then `get`). -/
lemma getParam_setParam (ps : List (String × String)) (k v : String) :
    getParam (setParam ps k v) k = some v := by
  induction ps with
  | nil => simp [setParam, getParam]
  | cons a t ih =>
    by_cases hk : a.1 = k
    · simp [setParam, hk, getParam]
    · simp only [setParam]
      rw [if_neg (by
        intro hc
        exact hk (by rw [← hc]))]
      simp [getParam, List.find?_cons_of_neg, hk] at ih ⊢
      exact ih

/-- Setting a key leaves the other-key bindings unchanged. -/
lemma filter_setParam (ps : List (String × String)) (k v : String) :
    (setParam ps k v).filter (fun p => p.1 ≠ k)
      = ps.filter (fun p => p.1 ≠ k) := by
  induction ps with
  | nil => simp [setParam]
  | cons a t ih =>
    by_cases hk : a.1 = k
    · simp only [setParam]
      rw [if_pos (by rw [hk])]
      simp [List.filter_filter, hk]
    · simp only [setParam]
      rw [if_neg (by
        intro hc
        exact hk (by rw [← hc]))]
      simp [hk]
      simpa using ih

/-- When the key is absent, appending its binding makes `get` find it. -/
lemma getParam_append_absent (ps : List (String × String)) (k v : String)
    (h : ps.any (fun p => p.1 = k) = false) :
    getParam (ps ++ [(k, v)]) k = some v := by
  induction ps with
  | nil => simp [getParam]
  | cons a t ih =>
    simp only [List.any_cons, Bool.or_eq_false_iff] at h
    simp only [List.cons_append, getParam, List.find?]
    have ha : (decide (a.1 = k)) = false := h.1
    rw [ha]
    exact ih h.2

/-- C9: a URL whose hostname ends in `dropbox.com` or `db.tt` is fetched
with its `dl` query parameter rewritten to `1` (set when absent, overwritten
when present) and nothing else changed; any other URL is fetched
unmodified. -/
theorem fetch_url_rewrite (u : SrcUrl) :
    if u.hostname.endsWith "dropbox.com" || u.hostname.endsWith "db.tt" then
      getParam (resolveDirectUrl u).searchParams "dl" = some "1" ∧
      ((resolveDirectUrl u).searchParams.filter (fun p => p.1 ≠ "dl"))
        = (u.searchParams.filter (fun p => p.1 ≠ "dl")) ∧
      (resolveDirectUrl u).hostname = u.hostname ∧
      (resolveDirectUrl u).pathname = u.pathname
    else resolveDirectUrl u = u := by
  cases hd : u.hostname.endsWith "dropbox.com" || u.hostname.endsWith "db.tt" with
  | true =>
    rw [if_pos rfl]
    have hs : isDropboxSharedLink u = true := by
      rw [isDropboxSharedLink]
      exact hd
    have hres : resolveDirectUrl u = toDirectDownload u := by
      rw [resolveDirectUrl, if_pos hs]
    rw [hres]
    cases hany : u.searchParams.any (fun p => p.1 = "dl") with
    | true =>
      have htd : toDirectDownload u
          = { u with searchParams := setParam u.searchParams "dl" "1" } := by
        rw [toDirectDownload, if_pos hany]
      rw [htd]
      exact ⟨getParam_setParam u.searchParams "dl" "1",
        filter_setParam u.searchParams "dl" "1", rfl, rfl⟩
    | false =>
      have htd : toDirectDownload u
          = { u with searchParams := u.searchParams ++ [("dl", "1")] } := by
        rw [toDirectDownload,
          if_neg (fun hc => Bool.false_ne_true (hany ▸ hc))]
      rw [htd]
      refine ⟨?_, ?_, rfl, rfl⟩
      · exact getParam_append_absent u.searchParams "dl" "1" hany
      · rw [List.filter_append]
        simp
  | false =>
    rw [if_neg Bool.false_ne_true]
    have hs : isDropboxSharedLink u = false := by
      rw [isDropboxSharedLink]
      exact hd
    rw [resolveDirectUrl,
      if_neg (fun hc => Bool.false_ne_true (hs ▸ hc))]

/-- The download stream never attempts a deletion. -/
lemma fetchStream_no_unlink (fo : FetchOracle) :
    ((fetchStream fo).2.filter Ev.isUnlink) = [] := by
  cases hs : fo.streamResult <;> simp [fetchStream, hs, Ev.isUnlink]

/-- A `downloadToTemp` call never attempts a deletion. -/
lemma downloadToTemp_no_unlink (token url dbp : Option String) (fo : FetchOracle) :
    ((downloadToTemp token url dbp fo).2.filter Ev.isUnlink) = [] := by
  cases hu : present url with
  | true => simp [downloadToTemp, hu, fetchStream_no_unlink fo]
  | false =>
    cases hp : present dbp with
    | false => simp [downloadToTemp, hu, hp]
    | true =>
      cases ht : present token with
      | false => simp [downloadToTemp, hu, hp, ht]
      | true =>
        cases hl : fo.linkResult with
        | error m => simp [downloadToTemp, hu, hp, ht, hl, Ev.isUnlink]
        | ok v => simp [downloadToTemp, hu, hp, ht, hl, Ev.isUnlink,
            fetchStream_no_unlink fo]

/-- C8: with no storage credential configured the endpoint answers the
credential-missing client error immediately, and the event trace is empty —
no network call, no fetch, no staging, no engine run, no upload. -/
theorem no_token_rejects (token : Option String) (req : MergeRequest) (o : Oracle)
    (h : present token = false) :
    mergeHandler token req o =
      (MergeResponse.clientError "Server missing DROPBOX_ACCESS_TOKEN env var", []) := by
  rw [mergeHandler, if_pos h]

/-- Witness for C8 at an otherwise valid concrete request. -/
theorem no_token_rejects_witness :
    present (none : Option String) = false ∧
    mergeHandler none sampleReq sampleOracle =
      (MergeResponse.clientError "Server missing DROPBOX_ACCESS_TOKEN env var", []) :=
  ⟨rfl, no_token_rejects none sampleReq sampleOracle rfl⟩

/-- C5: a request missing `out_path`, or both audio references, or both
video references, is rejected with a client error and an empty event trace —
no network call, no staging-file allocation, no fetch; and when the token is
configured and `out_path` is missing, the response is the out_path error
itself, so that check precedes audio/video resolution. -/
theorem validation_rejects_early (token : Option String) (req : MergeRequest)
    (o : Oracle)
    (h : present req.out_path = false ∨
      (present req.audio_url = false ∧ present req.audio_path = false) ∨
      (present req.video_url = false ∧ present req.video_path = false)) :
    ((mergeHandler token req o).1).isClientError = true ∧
    (mergeHandler token req o).2 = [] ∧
    (if present token = true ∧ present req.out_path = false then
      (mergeHandler token req o).1
        = MergeResponse.clientError "Missing out_path (Dropbox destination path)"
     else True) := by
  cases ht : present token with
  | false =>
    simp [mergeHandler, ht, MergeResponse.isClientError]
  | true =>
    cases hout : present req.out_path with
    | false =>
      simp [mergeHandler, ht, hout, MergeResponse.isClientError]
    | true =>
      rcases h with hout2 | hA | hV
      · rw [hout] at hout2
        exact absurd hout2 (by simp)
      · simp [mergeHandler, ht, hout, hA.1, hA.2, MergeResponse.isClientError]
      · cases caud : (present req.audio_url || present req.audio_path) with
        | false =>
          simp [mergeHandler, ht, hout, caud, MergeResponse.isClientError]
        | true =>
          simp [mergeHandler, ht, hout, caud, hV.1, hV.2, MergeResponse.isClientError]

/-- Witness for C5: token configured, request missing `out_path`. -/
theorem validation_rejects_early_witness :
    (present noOutReq.out_path = false ∨
      (present noOutReq.audio_url = false ∧ present noOutReq.audio_path = false) ∨
      (present noOutReq.video_url = false ∧ present noOutReq.video_path = false)) ∧
    (((mergeHandler (some "tok") noOutReq sampleOracle).1).isClientError = true ∧
    (mergeHandler (some "tok") noOutReq sampleOracle).2 = [] ∧
    (if present (some "tok") = true ∧ present noOutReq.out_path = false then
      (mergeHandler (some "tok") noOutReq sampleOracle).1
        = MergeResponse.clientError "Missing out_path (Dropbox destination path)"
     else True)) :=
  ⟨Or.inl rfl,
    validation_rejects_early (some "tok") noOutReq sampleOracle (Or.inl rfl)⟩

/-- C1 counterexample: with the merge engine failing with `boom` on an
otherwise valid request, the handler answers the 500 failure carrying the
engine's message, both input staging files were allocated, and yet the event
trace contains no deletion attempt at all — the staged files are not
removed. -/
theorem merge_error_no_cleanup_counterexample :
    (mergeHandler (some "tok") sampleReq mergeFailOracle).1
        = MergeResponse.serverError "boom" ∧
    (Ev.allocTmp "audio.tmp") ∈ (mergeHandler (some "tok") sampleReq mergeFailOracle).2 ∧
    (Ev.allocTmp "video.tmp") ∈ (mergeHandler (some "tok") sampleReq mergeFailOracle).2 ∧
    ((mergeHandler (some "tok") sampleReq mergeFailOracle).2.filter Ev.isUnlink) = [] := by
  decide

/-- C1 (amended): deletion of the staged files happens only on the success
path — whenever the handler's response is not the success response (any
fetch, merge, or upload failure, or a validation rejection), the event trace
contains no deletion attempt; in particular after a merge-engine error both
input staged files remain in storage. -/
theorem failure_attempts_no_cleanup (token : Option String) (req : MergeRequest)
    (o : Oracle) (h : ((mergeHandler token req o).1).isSuccess = false) :
    ((mergeHandler token req o).2.filter Ev.isUnlink) = [] := by
  have haA := downloadToTemp_no_unlink token req.audio_url req.audio_path o.audioFetch
  have haV := downloadToTemp_no_unlink token req.video_url req.video_path o.videoFetch
  cases ht : present token with
  | false => simp [mergeHandler, ht]
  | true =>
    cases hout : present req.out_path with
    | false => simp [mergeHandler, ht, hout]
    | true =>
      cases caud : (present req.audio_url || present req.audio_path) with
      | false => simp [mergeHandler, ht, hout, caud]
      | true =>
        cases cvid : (present req.video_url || present req.video_path) with
        | false => simp [mergeHandler, ht, hout, caud, cvid]
        | true =>
          rcases hDA : downloadToTemp token req.audio_url req.audio_path o.audioFetch
            with ⟨ra, evsA⟩
          rw [hDA] at haA
          simp only [] at haA
          cases ra with
          | error m =>
            simp [mergeHandler, ht, hout, caud, cvid, hDA, haA]
          | ok audioTmp =>
            rcases hDV : downloadToTemp token req.video_url req.video_path o.videoFetch
              with ⟨rv, evsV⟩
            rw [hDV] at haV
            simp only [] at haV
            cases rv with
            | error m =>
              simp [mergeHandler, ht, hout, caud, cvid, hDA, hDV,
                List.filter_append, haA, haV]
            | ok videoTmp =>
              cases hm : o.mergeResult with
              | error m =>
                simp [mergeHandler, ht, hout, caud, cvid, hDA, hDV, hm,
                  List.filter_append, haA, haV, Ev.isUnlink]
              | ok mv =>
                cases hup : o.uploadResult with
                | error m =>
                  simp [mergeHandler, ht, hout, caud, cvid, hDA, hDV, hm, hup,
                    List.filter_append, haA, haV, Ev.isUnlink]
                | ok uploaded =>
                  rw [mergeHandler] at h
                  simp only [ht, hout, caud, cvid, hDA, hDV, hm, hup] at h
                  simp [MergeResponse.isSuccess] at h

/-- Witness for the amended C1 at the concrete merge-engine failure. -/
theorem failure_attempts_no_cleanup_witness :
    ((mergeHandler (some "tok") sampleReq mergeFailOracle).1).isSuccess = false ∧
    ((mergeHandler (some "tok") sampleReq mergeFailOracle).2.filter Ev.isUnlink) = [] :=
  ⟨by decide, failure_attempts_no_cleanup (some "tok") sampleReq mergeFailOracle (by decide)⟩

end JFF
